import Mathlib

/-!
Verification of the ePIC Condor job submitter (`ePICJobSubmitter.py`).

The script lists ROOT files from a remote XRDFS directory, splits them into
`min(njobs, total)` contiguous partitions, writes one input-list file per
partition, an items manifest, and a single HTCondor submit descriptor with one
`queue ... from` directive, then invokes `condor_submit`.

The development embeds the script shallowly: pure computations (partition
boundaries, row formatting, descriptor text) become Lean functions; the
side-effecting `main` becomes a function from its external inputs (the XRDFS
listing outcome, a write-failure oracle for `open(..., "w")`, the scheduler's
exit status) to the trace of filesystem/console effects plus the process
outcome.
-/

namespace EPICSubmitter

/-- Python slice `xs[start:end]` for `0 ≤ start ≤ end ≤ len xs`
(the only regime used by the script). -/
def pySlice (xs : List α) (s e : Nat) : List α :=
  (xs.drop s).take (e - s)

/-- Line 39: `n_requested = min(args.njobs, total_files)`, the effective
number of partitions. -/
def nEffective (njobs total : Nat) : Nat := min njobs total

/-- Line 59: `start = i * total_files // n_requested`. -/
def partStart (total n i : Nat) : Nat := i * total / n

/-- Line 60: `end = (i + 1) * total_files // n_requested`. -/
def partEnd (total n i : Nat) : Nat := (i + 1) * total / n

/-- The list of partition slices produced by the loop at lines 57-61:
`files[start:end]` for `i in range(n_requested)`. -/
def partitionSlices (xs : List α) (njobs : Nat) : List (List α) :=
  (List.range (nEffective njobs xs.length)).map fun i =>
    pySlice xs (partStart xs.length (nEffective njobs xs.length) i)
               (partEnd xs.length (nEffective njobs xs.length) i)

/-- The partition sizes `end - start`, in partition order. -/
def partitionSizes (total njobs : Nat) : List Nat :=
  (List.range (nEffective njobs total)).map fun i =>
    partEnd total (nEffective njobs total) i - partStart total (nEffective njobs total) i

/-- Ceiling division, `⌈a / b⌉` on naturals. -/
def ceilDiv (a b : Nat) : Nat := (a + b - 1) / b

/-- Python `"\n".join(lst)`. -/
def nlJoin : List String → String
  | [] => ""
  | [a] => a
  | a :: b :: rest => a ++ "\n" ++ nlJoin (b :: rest)

/-- Python `os.path.join(a, b)` for a relative second component. -/
def pathJoin (a b : String) : String := a ++ "/" ++ b

/- ### Arithmetic facts about the boundary function -/

theorem partStart_mono (total n : Nat) {i j : Nat} (h : i ≤ j) :
    partStart total n i ≤ partStart total n j :=
  Nat.div_le_div_right (Nat.mul_le_mul_right total h)

theorem partStart_zero (total n : Nat) : partStart total n 0 = 0 := by
  simp [partStart]

theorem partEnd_eq_partStart_succ (total n i : Nat) :
    partEnd total n i = partStart total n (i + 1) := rfl

theorem partEnd_last (total n : Nat) (hn : 0 < n) :
    partEnd total n (n - 1) = total := by
  unfold partEnd
  rw [Nat.sub_add_cancel hn, Nat.mul_div_cancel_left _ hn]

theorem partStart_le_partEnd (total n i : Nat) :
    partStart total n i ≤ partEnd total n i :=
  partStart_mono total n (Nat.le_succ i)

theorem partEnd_le_total (total n i : Nat) (hn : 0 < n) (hi : i < n) :
    partEnd total n i ≤ total := by
  calc partEnd total n i ≤ partEnd total n (n - 1) := by
        exact Nat.div_le_div_right (Nat.mul_le_mul_right total (by omega))
    _ = total := partEnd_last total n hn

/-- Lower bound on a partition size: at least `⌊total / n⌋`. -/
theorem size_lower (total n i : Nat) :
    total / n ≤ partEnd total n i - partStart total n i := by
  have h : i * total / n + total / n ≤ (i * total + total) / n :=
    Nat.add_div_le_add_div _ _ _
  have h2 : (i + 1) * total = i * total + total := by ring
  unfold partEnd partStart
  rw [h2]
  omega

/-- Bound `total ≤ n * ⌈total / n⌉`. -/
theorem le_mul_ceilDiv (total n : Nat) (hn : 0 < n) :
    total ≤ n * ceilDiv total n := by
  unfold ceilDiv
  have h1 : n * ((total + n - 1) / n) = (total + n - 1) - (total + n - 1) % n := by
    have := Nat.div_add_mod (total + n - 1) n
    omega
  have h2 : (total + n - 1) % n < n := Nat.mod_lt _ hn
  omega

/-- Upper bound on a partition size: at most `⌈total / n⌉`. -/
theorem size_upper (total n i : Nat) (hn : 0 < n) :
    partEnd total n i - partStart total n i ≤ ceilDiv total n := by
  have h2 : (i + 1) * total = i * total + total := by ring
  have h3 : (i * total + total) / n ≤ (i * total + n * ceilDiv total n) / n :=
    Nat.div_le_div_right (by have := le_mul_ceilDiv total n hn; omega)
  have h4 : (i * total + n * ceilDiv total n) / n = i * total / n + ceilDiv total n :=
    Nat.add_mul_div_left _ _ hn
  unfold partEnd partStart
  rw [h2]
  omega

theorem ceilDiv_le_div_succ (total n : Nat) (hn : 0 < n) :
    ceilDiv total n ≤ total / n + 1 := by
  unfold ceilDiv
  calc (total + n - 1) / n ≤ (total + n) / n := Nat.div_le_div_right (by omega)
    _ = total / n + 1 := Nat.add_div_right _ hn

/-- Each partition size is `⌊total / n⌋` or `⌈total / n⌉`. -/
theorem size_floor_or_ceil (total n i : Nat) (hn : 0 < n) :
    partEnd total n i - partStart total n i = total / n ∨
    partEnd total n i - partStart total n i = ceilDiv total n := by
  have h1 := size_lower total n i
  have h2 := size_upper total n i hn
  have h3 := ceilDiv_le_div_succ total n hn
  omega

/-- Joining the first `k` slices yields the prefix up to boundary `k`. -/
theorem join_slices_take (xs : List α) (n : Nat) (k : Nat)
    (hk : partStart xs.length n k ≤ xs.length) :
    ((List.range k).map fun i =>
        pySlice xs (partStart xs.length n i) (partEnd xs.length n i)).flatten =
      xs.take (partStart xs.length n k) := by
  induction k with
  | zero => simp [partStart]
  | succ k ih =>
    have hmono : partStart xs.length n k ≤ partStart xs.length n (k + 1) :=
      partStart_mono _ _ (Nat.le_succ k)
    rw [List.range_succ, List.map_append, List.flatten_append,
      ih (le_trans hmono hk)]
    simp only [List.map_cons, List.map_nil, List.flatten_cons, List.flatten_nil,
      List.append_nil]
    rw [pySlice, partEnd_eq_partStart_succ, ← List.take_add,
      Nat.add_sub_cancel' hmono]

/-- Concatenating all partition slices in order reproduces the input. -/
theorem join_partitionSlices (xs : List α) (njobs : Nat)
    (hx : 1 ≤ xs.length) (hn : 1 ≤ njobs) :
    (partitionSlices xs njobs).flatten = xs := by
  have hpos : 0 < nEffective njobs xs.length := by
    unfold nEffective; omega
  unfold partitionSlices
  have hlast : partStart xs.length (nEffective njobs xs.length)
      (nEffective njobs xs.length) = xs.length := by
    unfold partStart
    exact Nat.mul_div_cancel_left _ hpos
  have := join_slices_take xs (nEffective njobs xs.length)
    (nEffective njobs xs.length) (le_of_eq hlast)
  simp only [partEnd_eq_partStart_succ] at this ⊢
  rw [this, hlast, List.take_length]

/- ### The script's configuration, effects and run model -/

/-- The configuration parsed by `argparse` (lines 10-17).  `njobs` is
modelled as a natural number; every claim assumes it is at least 1. -/
structure Config where
  tag : String
  exec : String
  inputDir : String
  outputDir : String
  njobs : Nat
  jobArgs : String
deriving Repr, DecidableEq

/-- A side effect performed by `main`: a console message, a
`os.makedirs(..., exist_ok=True)`, a full-file write, or the
`condor_submit` invocation. -/
inductive Eff where
  | println (msg : String)
  | mkdirP (path : String)
  | writeFile (path : String) (content : String)
  | condorSubmit (path : String)
deriving Repr, DecidableEq

/-- How the process terminates: a normal return from `main`, or an uncaught
`OSError` raised by `open(path, "w")` (the script installs no handler for
these). -/
inductive Outcome where
  | normalReturn
  | uncaughtOSError (path : String)
deriving Repr, DecidableEq

/-- Result of the external `xrdfs dtn-eic.jlab.org ls` call (lines 24-27):
the captured stdout split into lines, or a `CalledProcessError` message. -/
inductive Listing where
  | ok (stdoutLines : List String)
  | callFailed (msg : String)
deriving Repr, DecidableEq

/-- Python `line.strip()`: drop surrounding whitespace.  (Written over the
character list so that proofs can evaluate it by kernel reduction.) -/
def pyStrip (s : String) : String :=
  ⟨(((s.data.dropWhile Char.isWhitespace).reverse).dropWhile
      Char.isWhitespace).reverse⟩

/-- Line 28: keep the non-blank stdout lines, strip them, and prefix the
fixed access scheme and host. -/
def filesFromStdout (stdoutLines : List String) : List String :=
  (stdoutLines.filter fun l => pyStrip l != "").map fun l =>
    "root://dtn-eic.jlab.org/" ++ pyStrip l

/-- Line 44: `job_folder = os.path.join(args.output_dir, f"job_{args.tag}")`. -/
def jobFolder (cfg : Config) : String :=
  pathJoin cfg.outputDir ("job_" ++ cfg.tag)

/-- Line 48: `input_list_file = os.path.join(job_folder, f"{args.tag}.list")`. -/
def inputListFile (cfg : Config) : String :=
  pathJoin (jobFolder cfg) (cfg.tag ++ ".list")

/-- Line 53: `master_condor_file = os.path.join(job_folder, f"submit_{args.tag}.sub")`. -/
def masterCondorFile (cfg : Config) : String :=
  pathJoin (jobFolder cfg) ("submit_" ++ cfg.tag ++ ".sub")

/-- Line 54: `condor_items_file = os.path.join(job_folder, f"{args.tag}.items")`. -/
def condorItemsFile (cfg : Config) : String :=
  pathJoin (jobFolder cfg) (cfg.tag ++ ".items")

/-- Line 64: `job_input_txt` for a given 1-based `filenumber`. -/
def jobInputTxt (cfg : Config) (filenumber : Nat) : String :=
  pathJoin (jobFolder cfg) (cfg.tag ++ "_" ++ toString filenumber ++ "_input.txt")

/-- Line 69: `output_root` for a given 1-based `filenumber`. -/
def outputRoot (cfg : Config) (filenumber : Nat) : String :=
  pathJoin (jobFolder cfg) (cfg.tag ++ "_" ++ toString filenumber ++ ".root")

/-- Line 70: `job_tag = f"{args.tag}_{filenumber}"`. -/
def jobTag (cfg : Config) (filenumber : Nat) : String :=
  cfg.tag ++ "_" ++ toString filenumber

/-- One manifest row (line 73): the three fields joined by `", "`. -/
def jobRow (cfg : Config) (filenumber : Nat) : String :=
  jobInputTxt cfg filenumber ++ ", " ++ outputRoot cfg filenumber ++ ", " ++
    jobTag cfg filenumber

/-- All manifest rows in partition order, `filenumber = i + 1` for
`i in range(nReq)` (lines 55-73). -/
def jobRows (cfg : Config) (nReq : Nat) : List String :=
  (List.range nReq).map fun i => jobRow cfg (i + 1)

/-- The lines of the Condor submit descriptor written at lines 80-91, in
write order; a `\n\n` in the source shows up as an intervening empty line. -/
def submitLines (cfg : Config) : List String :=
  let extra := if cfg.jobArgs ≠ "" then " " ++ cfg.jobArgs else ""
  [ "# HTCondor Submit File - V24 Compatible",
    "Universe       = vanilla",
    "Executable     = " ++ cfg.exec,
    "getenv         = true",
    "request_memory = 4G",
    "notification   = Never",
    "",
    "Arguments      = $(InFile) $(OutFile)" ++ extra,
    "Output         = " ++ jobFolder cfg ++ "/$(Tag).out",
    "Error          = " ++ jobFolder cfg ++ "/$(Tag).err",
    "Log            = " ++ jobFolder cfg ++ "/$(Tag).log",
    "",
    "queue InFile, OutFile, Tag from " ++ condorItemsFile cfg ]

/-- The full text of the submit descriptor: each written line followed by
its newline. -/
def submitFileContent (cfg : Config) : String :=
  String.join ((submitLines cfg).map (· ++ "\n"))

/-- State of the partition loop (lines 57-73) after processing some indices:
effects and `job_rows` accumulated, and the path whose `open` raised, if any
(the loop stops there). -/
structure LoopRes where
  effs : List Eff
  rows : List String
  failedPath : Option String
deriving Repr, DecidableEq

/-- The loop at lines 57-73 over the remaining indices `i`: slice
`files[start:end]`, write the per-job input list, and append the manifest
row.  `writeFails` says which `open(path, "w")` calls raise `OSError`. -/
def partLoop (cfg : Config) (writeFails : String → Bool) (files : List String)
    (totalFiles nReq : Nat) : List Nat → LoopRes
  | [] => ⟨[], [], none⟩
  | i :: rest =>
    let filenumber := i + 1
    let filesForJob :=
      pySlice files (i * totalFiles / nReq) ((i + 1) * totalFiles / nReq)
    let txtPath := jobInputTxt cfg filenumber
    if writeFails txtPath then ⟨[], [], some txtPath⟩
    else
      let r := partLoop cfg writeFails files totalFiles nReq rest
      ⟨Eff.writeFile txtPath (nlJoin filesForJob) :: r.effs,
        jobRow cfg filenumber :: r.rows, r.failedPath⟩

/-- Shallow embedding of `main` (lines 19-99) after argument parsing.
`listing` is the outcome of the external `xrdfs ls` call, `writeFails` says
which `open(path, "w")` calls raise `OSError`, and `submitErr` is `none`
when `condor_submit` exits 0 and `some msg` when it fails with that error
text.  Returns the trace of effects together with the process outcome.
`os.makedirs` is assumed to succeed. -/
def mainRun (cfg : Config) (listing : Listing) (writeFails : String → Bool)
    (submitErr : Option String) : List Eff × Outcome :=
  let e0 := [Eff.println
    ("Listing files from XRDFS directory: " ++ cfg.inputDir ++ " ...")]
  match listing with
  | .callFailed msg =>
    (e0 ++ [Eff.println ("Error listing XRDFS files: " ++ msg)], .normalReturn)
  | .ok stdoutLines =>
    let files := filesFromStdout stdoutLines
    if files.isEmpty then
      (e0 ++ [Eff.println ("No files found in " ++ cfg.inputDir)], .normalReturn)
    else
      let totalFiles := files.length
      let nReq := min cfg.njobs totalFiles
      let e1 := e0 ++ [Eff.println ("Found " ++ toString totalFiles ++
        " files, splitting into " ++ toString nReq ++ " jobs...")]
      let e2 := e1 ++ [Eff.mkdirP cfg.outputDir, Eff.mkdirP (jobFolder cfg)]
      if writeFails (inputListFile cfg) then
        (e2, .uncaughtOSError (inputListFile cfg))
      else
        let e3 := e2 ++ [Eff.writeFile (inputListFile cfg) (nlJoin files)]
        let r := partLoop cfg writeFails files totalFiles nReq (List.range nReq)
        match r.failedPath with
        | some p => (e3 ++ r.effs, .uncaughtOSError p)
        | none =>
          if writeFails (condorItemsFile cfg) then
            (e3 ++ r.effs, .uncaughtOSError (condorItemsFile cfg))
          else
            let e4 := e3 ++ r.effs ++
              [Eff.writeFile (condorItemsFile cfg) (nlJoin r.rows)]
            if writeFails (masterCondorFile cfg) then
              (e4, .uncaughtOSError (masterCondorFile cfg))
            else
              let e5 := e4 ++
                [Eff.writeFile (masterCondorFile cfg) (submitFileContent cfg)]
              let e6 := e5 ++ [Eff.println ("Submitting to Condor using " ++
                masterCondorFile cfg ++ " ..."),
                Eff.condorSubmit (masterCondorFile cfg)]
              match submitErr with
              | none =>
                (e6 ++ [Eff.println ("Submission successful.")], .normalReturn)
              | some msg =>
                (e6 ++ [Eff.println ("Error during submission: " ++ msg)],
                  .normalReturn)

/-- The interpreter's exit status: 0 when `main` returns normally
(`if __name__ == "__main__": main()` with no `sys.exit`), 1 when an
exception escapes. -/
def exitCode : Outcome → Nat
  | .normalReturn => 0
  | .uncaughtOSError _ => 1

/-- The path a `writeFile` effect targets, if the effect is a write. -/
def effWritePath : Eff → Option String
  | .writeFile p _ => some p
  | _ => none

/- ### Spec-modelled Source Resolver (the local-list variant's script is not
under `src/`) -/

/-- The spec's error taxonomy for source resolution (spec section 7). -/
inductive ResolveError where
  | missingInput
  | remoteListing (msg : String)
  | emptyInput
deriving Repr, DecidableEq

/-- Modelled from the spec: the mode-determining configuration choice
(spec sections 4.1 and 6).  The repository's local-list entry-point script is
not under `src/`; only the remote-listing variant is.  The configuration
supplies exactly one of a local input-list path or a remote directory path,
and this choice selects the resolver variant. -/
inductive SourceConfig where
  | localList (path : String)
  | remoteDir (path : String)
deriving Repr, DecidableEq

/-- Split a string at newline characters, over the character list (so that
proofs can evaluate it by kernel reduction). -/
def splitNl (s : String) : List String :=
  (s.data.splitOn (Char.ofNat 10)).map fun cs => ⟨cs⟩

/-- Modelled from the spec: local-list resolution (spec section 4.1).  Read
the text file at `path` from filesystem `fs` (`none` means the file does not
exist); each non-blank line, stripped of surrounding whitespace, becomes one
item reference in file order; a missing file fails with `MissingInputError`. -/
def resolveLocalList (fs : String → Option String) (path : String) :
    Except ResolveError (List String) :=
  match fs path with
  | none => .error .missingInput
  | some content =>
    .ok ((( splitNl content).map pyStrip).filter fun l => l != "")

/-- The Source Resolver: dispatch on which configuration input was supplied.
The remote variant reconstructs full locators exactly as line 28 of
`src/ePICJobSubmitter.py` does; per spec section 4.1 it fails with
`RemoteListingError` when the listing call errors and with `EmptyInputError`
when it yields zero entries. -/
def resolveSource (fs : String → Option String) (listing : Listing) :
    SourceConfig → Except ResolveError (List String)
  | .localList path => resolveLocalList fs path
  | .remoteDir _ =>
    match listing with
    | .callFailed msg => .error (.remoteListing msg)
    | .ok stdoutLines =>
      let files := filesFromStdout stdoutLines
      if files.isEmpty then .error .emptyInput else .ok files

/- ### Further helper lemmas -/

theorem length_pySlice (xs : List α) (s e : Nat) (hse : s ≤ e)
    (he : e ≤ xs.length) : (pySlice xs s e).length = e - s := by
  simp only [pySlice, List.length_take, List.length_drop]
  omega

theorem partitionSlices_length (xs : List α) (njobs : Nat) :
    (partitionSlices xs njobs).length = nEffective njobs xs.length := by
  simp [partitionSlices]

theorem partitionSlices_getElem (xs : List α) (njobs i : Nat)
    (hi : i < nEffective njobs xs.length) :
    (partitionSlices xs njobs)[i]? =
      some (pySlice xs (partStart xs.length (nEffective njobs xs.length) i)
        (partEnd xs.length (nEffective njobs xs.length) i)) := by
  simp [partitionSlices, List.getElem?_map, List.getElem?_range, hi]

/-- C1: for every item sequence of length `total ≥ 1` and requested count
`njobs ≥ 1`, the script produces exactly `min njobs total` partitions;
partition `i` is the slice `[i*total/nEff, (i+1)*total/nEff)`; the slice
boundaries start at 0, end at `total`, are contiguous and monotone (so the
slices are non-overlapping and exactly cover `[0, total)`), and every
partition's size is `⌊total/nEff⌋` or `⌈total/nEff⌉`. -/
theorem C1_partitioner_balanced (xs : List α) (njobs : Nat)
    (hx : 1 ≤ xs.length) (hn : 1 ≤ njobs) :
    (partitionSlices xs njobs).length = nEffective njobs xs.length ∧
    (∀ i, i < nEffective njobs xs.length →
      (partitionSlices xs njobs)[i]? =
        some (pySlice xs (partStart xs.length (nEffective njobs xs.length) i)
          (partEnd xs.length (nEffective njobs xs.length) i))) ∧
    partStart xs.length (nEffective njobs xs.length) 0 = 0 ∧
    partEnd xs.length (nEffective njobs xs.length)
      (nEffective njobs xs.length - 1) = xs.length ∧
    (∀ i, partEnd xs.length (nEffective njobs xs.length) i =
      partStart xs.length (nEffective njobs xs.length) (i + 1)) ∧
    (∀ i j, i < j → partEnd xs.length (nEffective njobs xs.length) i ≤
      partStart xs.length (nEffective njobs xs.length) j) ∧
    (∀ i, i < nEffective njobs xs.length →
      partEnd xs.length (nEffective njobs xs.length) i -
          partStart xs.length (nEffective njobs xs.length) i =
        xs.length / nEffective njobs xs.length ∨
      partEnd xs.length (nEffective njobs xs.length) i -
          partStart xs.length (nEffective njobs xs.length) i =
        ceilDiv xs.length (nEffective njobs xs.length)) := by
  have hpos : 0 < nEffective njobs xs.length := by unfold nEffective; omega
  refine ⟨partitionSlices_length xs njobs,
    fun i hi => partitionSlices_getElem xs njobs i hi,
    partStart_zero _ _, partEnd_last _ _ hpos,
    fun i => partEnd_eq_partStart_succ _ _ i,
    fun i j hij => ?_, fun i _ => size_floor_or_ceil _ _ i hpos⟩
  rw [partEnd_eq_partStart_succ]
  exact partStart_mono _ _ hij

/-- Witness for C1 at ten items split into three partitions. -/
theorem C1_partitioner_balanced_witness :
    (partitionSlices (List.range 10) 3).length = 3 :=
  (C1_partitioner_balanced (List.range 10) 3 (by decide) (by decide)).1.trans
    (by decide)

theorem ceilDiv_eq_div (total n : Nat) (hn : 0 < n) (hr : total % n = 0) :
    ceilDiv total n = total / n := by
  have h1 := Nat.div_add_mod total n
  have h3 : total + n - 1 = n * (total / n) + (n - 1) := by omega
  unfold ceilDiv
  rw [h3, Nat.mul_add_div hn, Nat.div_eq_of_lt (show n - 1 < n by omega)]
  omega

theorem ceilDiv_eq_div_succ (total n : Nat) (hn : 0 < n) (hr : total % n ≠ 0) :
    ceilDiv total n = total / n + 1 := by
  have h1 := Nat.div_add_mod total n
  have h2 : total % n < n := Nat.mod_lt _ hn
  have h3 : total + n - 1 = n * (total / n + 1) + (total % n - 1) := by
    have h4 : n * (total / n + 1) = n * (total / n) + n := by ring
    omega
  unfold ceilDiv
  rw [h3, Nat.mul_add_div hn,
    Nat.div_eq_of_lt (show total % n - 1 < n by omega)]

/-- The first partition's size is exactly `⌊total / n⌋`. -/
theorem size_first_eq_div (total n : Nat) :
    partEnd total n 0 - partStart total n 0 = total / n := by
  simp [partEnd, partStart]

/-- The last partition's size is exactly `⌈total / n⌉`. -/
theorem size_last_eq_ceilDiv (total n : Nat) (hn : 0 < n) :
    partEnd total n (n - 1) - partStart total n (n - 1) = ceilDiv total n := by
  rcases Nat.eq_zero_or_pos (total % n) with hr | hr
  · rcases size_floor_or_ceil total n (n - 1) hn with h | h
    · rw [h, ceilDiv_eq_div total n hn hr]
    · exact h
  · rcases size_floor_or_ceil total n (n - 1) hn with h | h
    · exfalso
      have hmod := Nat.div_add_mod total n
      have hs1 : (n - 1) * total = n * total - 1 * total := Nat.sub_mul n 1 total
      have hs2 : (total - total / n) * n = total * n - total / n * n :=
        Nat.sub_mul total (total / n) n
      have hc1 : n * total = total * n := Nat.mul_comm n total
      have hc2 : total / n * n = n * (total / n) := Nat.mul_comm _ _
      have hle : total ≤ n * total := Nat.le_mul_of_pos_left total hn
      have hkey : (n - 1) * total < (total - total / n) * n := by omega
      have hdiv : (n - 1) * total / n < total - total / n :=
        (Nat.div_lt_iff_lt_mul hn).2 hkey
      have hstart : partStart total n (n - 1) = (n - 1) * total / n := rfl
      have hend := partEnd_last total n hn
      have hsle : partStart total n (n - 1) ≤ total := by
        have := partStart_le_partEnd total n (n - 1)
        omega
      rw [hend, hstart] at h
      have hq : total / n ≤ total := Nat.div_le_self _ _
      omega
    · exact h

/-- C2 counterexample: for 10 items and `njobs = 3` the script produces
partition sizes `[3, 3, 4]` — not `[4, 3, 3]` — and that size sequence is
not monotonically non-increasing. -/
theorem C2_counterexample :
    partitionSizes 10 3 = [3, 3, 4] ∧ partitionSizes 10 3 ≠ [4, 3, 3] ∧
    ¬ (partitionSizes 10 3).Pairwise (fun a b => a ≥ b) := by decide

/-- C2 (amended): the size sequence is not monotone in general; instead every
size is `⌊total/nEff⌋` or `⌈total/nEff⌉`, the FIRST partition always receives
exactly `⌊total/nEff⌋` items and the LAST always exactly `⌈total/nEff⌉` — the
larger remainder share goes to later partitions, not earlier ones — and for
an input of 10 items with `njobs = 3` the partition sizes are `3, 3, 4`. -/
theorem C2_amended_sizes (total njobs : Nat) (ht : 1 ≤ total)
    (hn : 1 ≤ njobs) :
    (partitionSizes total njobs).head? =
      some (total / nEffective njobs total) ∧
    (partitionSizes total njobs).getLast? =
      some (ceilDiv total (nEffective njobs total)) ∧
    (∀ s ∈ partitionSizes total njobs,
      s = total / nEffective njobs total ∨
      s = ceilDiv total (nEffective njobs total)) ∧
    partitionSizes 10 3 = [3, 3, 4] := by
  have hpos : 0 < nEffective njobs total := by unfold nEffective; omega
  refine ⟨?_, ?_, ?_, by decide⟩
  · rw [List.head?_eq_getElem?]
    simp only [partitionSizes, List.getElem?_map, List.getElem?_range, hpos]
    simp [size_first_eq_div]
  · rw [List.getLast?_eq_getElem?]
    have hlen : (partitionSizes total njobs).length = nEffective njobs total := by
      simp [partitionSizes]
    rw [hlen]
    simp only [partitionSizes, List.getElem?_map, List.getElem?_range,
      show nEffective njobs total - 1 < nEffective njobs total by omega]
    simp [size_last_eq_ceilDiv total (nEffective njobs total) hpos]
  · intro s hs
    simp only [partitionSizes, List.mem_map, List.mem_range] at hs
    obtain ⟨i, hi, rfl⟩ := hs
    exact size_floor_or_ceil total (nEffective njobs total) i hpos

/-- Witness for the amended C2 at ten items split into three partitions. -/
theorem C2_amended_sizes_witness :
    (partitionSizes 10 3).head? = some (10 / nEffective 3 10) :=
  (C2_amended_sizes 10 3 (by decide) (by decide)).1

theorem nlJoin_append (l m : List String) (hl : l ≠ []) (hm : m ≠ []) :
    nlJoin (l ++ m) = nlJoin l ++ "\n" ++ nlJoin m := by
  induction l with
  | nil => exact absurd rfl hl
  | cons a l ih =>
    cases l with
    | nil =>
      cases m with
      | nil => exact absurd rfl hm
      | cons b m => simp [nlJoin]
    | cons b l2 =>
      have h2 : nlJoin ((a :: b :: l2) ++ m) =
          a ++ "\n" ++ nlJoin ((b :: l2) ++ m) := rfl
      rw [h2, ih (by simp)]
      simp [nlJoin, String.append_assoc]

theorem nlJoin_flatten (ls : List (List String)) (h : ∀ l ∈ ls, l ≠ []) :
    nlJoin (ls.map nlJoin) = nlJoin ls.flatten := by
  induction ls with
  | nil => rfl
  | cons l ls ih =>
    cases ls with
    | nil => simp [nlJoin]
    | cons m ls2 =>
      have hl : l ≠ [] := h l (by simp)
      have hflat : (m :: ls2).flatten ≠ [] := by
        have hm : m ≠ [] := h m (by simp)
        simp only [List.flatten_cons]
        intro hcontra
        exact hm (List.append_eq_nil.mp hcontra).1
      have hmap : (m :: ls2).map nlJoin ≠ [] := by simp
      calc nlJoin ((l :: m :: ls2).map nlJoin)
          = nlJoin ([nlJoin l] ++ (m :: ls2).map nlJoin) := rfl
        _ = nlJoin [nlJoin l] ++ "\n" ++ nlJoin ((m :: ls2).map nlJoin) :=
            nlJoin_append _ _ (by simp) hmap
        _ = nlJoin l ++ "\n" ++ nlJoin (m :: ls2).flatten := by
            rw [ih (fun x hx => h x (by simp [hx]))]; rfl
        _ = nlJoin (l ++ (m :: ls2).flatten) :=
            (nlJoin_append _ _ hl hflat).symm
        _ = nlJoin (l :: m :: ls2).flatten := by
            simp only [List.flatten_cons]

/-- Every partition slice is non-empty (when `total ≥ 1`). -/
theorem partitionSlices_ne_nil (xs : List α) (njobs : Nat)
    (hx : 1 ≤ xs.length) (hn : 1 ≤ njobs) :
    ∀ s ∈ partitionSlices xs njobs, s ≠ [] := by
  have hpos : 0 < nEffective njobs xs.length := by unfold nEffective; omega
  have hle : nEffective njobs xs.length ≤ xs.length := Nat.min_le_right _ _
  intro s hs
  simp only [partitionSlices, List.mem_map, List.mem_range] at hs
  obtain ⟨i, hi, rfl⟩ := hs
  have h1 : 1 ≤ xs.length / nEffective njobs xs.length :=
    (Nat.one_le_div_iff hpos).2 hle
  have h2 := size_lower xs.length (nEffective njobs xs.length) i
  have h3 := partStart_le_partEnd xs.length (nEffective njobs xs.length) i
  have h4 := partEnd_le_total xs.length (nEffective njobs xs.length) i hpos hi
  have h5 := length_pySlice xs (partStart xs.length (nEffective njobs xs.length) i)
    (partEnd xs.length (nEffective njobs xs.length) i) h3 h4
  intro hnil
  rw [hnil] at h5
  simp at h5
  omega

/-- C3: concatenating the per-partition input lists in partition order
reproduces the resolved item sequence exactly: the slices flatten back to the
input, every per-partition file is non-empty, and the concatenation of the
written file contents (with the separating newlines) equals the newline-join
of the whole sequence. -/
theorem C3_roundtrip (xs : List String) (njobs : Nat)
    (hx : 1 ≤ xs.length) (hn : 1 ≤ njobs) :
    (partitionSlices xs njobs).flatten = xs ∧
    (∀ s ∈ partitionSlices xs njobs, s ≠ []) ∧
    nlJoin ((partitionSlices xs njobs).map nlJoin) = nlJoin xs := by
  refine ⟨join_partitionSlices xs njobs hx hn,
    partitionSlices_ne_nil xs njobs hx hn, ?_⟩
  rw [nlJoin_flatten _ (partitionSlices_ne_nil xs njobs hx hn),
    join_partitionSlices xs njobs hx hn]

/-- Witness for C3 at ten items split into three partitions. -/
theorem C3_roundtrip_witness :
    (partitionSlices ["a", "b", "c", "d", "e"] 2).flatten =
      ["a", "b", "c", "d", "e"] :=
  (C3_roundtrip ["a", "b", "c", "d", "e"] 2 (by decide) (by decide)).1

/-- C4: the items manifest holds exactly `nEffective` rows, row `i`
(0-based) describes partition `i`, the three fields are joined by the exact
delimiter `", "`, and row `i`'s tag is `{tag}_{i+1}` (1-based index). -/
theorem C4_manifest_rows (cfg : Config) (total : Nat) (ht : 1 ≤ total)
    (hn : 1 ≤ cfg.njobs) :
    (jobRows cfg (nEffective cfg.njobs total)).length =
      nEffective cfg.njobs total ∧
    (∀ i, i < nEffective cfg.njobs total →
      (jobRows cfg (nEffective cfg.njobs total))[i]? =
        some (jobInputTxt cfg (i + 1) ++ ", " ++ outputRoot cfg (i + 1) ++
          ", " ++ (cfg.tag ++ "_" ++ toString (i + 1)))) := by
  constructor
  · simp [jobRows]
  · intro i hi
    simp [jobRows, List.getElem?_map, List.getElem?_range, hi, jobRow, jobTag]

/-- Witness for C4 with prefix `ep`, ten items, three requested jobs. -/
theorem C4_manifest_rows_witness :
    (jobRows ⟨"ep", "./job.sh", "/in", "./results", 3, ""⟩
      (nEffective 3 10)).length = nEffective 3 10 :=
  (C4_manifest_rows ⟨"ep", "./job.sh", "/in", "./results", 3, ""⟩ 10
    (by decide) (by decide)).1

/- ### The successful-run trace -/

/-- The effect trace of a run in which the listing returned `files ≠ []` and
no write failed, ending with the submission message selected by
`submitErr`. -/
def successTrace (cfg : Config) (files : List String)
    (submitErr : Option String) : List Eff :=
  let totalFiles := files.length
  let nReq := min cfg.njobs totalFiles
  [Eff.println
      ("Listing files from XRDFS directory: " ++ cfg.inputDir ++ " ..."),
    Eff.println ("Found " ++ toString totalFiles ++ " files, splitting into "
      ++ toString nReq ++ " jobs..."),
    Eff.mkdirP cfg.outputDir, Eff.mkdirP (jobFolder cfg),
    Eff.writeFile (inputListFile cfg) (nlJoin files)] ++
  ((List.range nReq).map fun i =>
    Eff.writeFile (jobInputTxt cfg (i + 1))
      (nlJoin (pySlice files (partStart totalFiles nReq i)
        (partEnd totalFiles nReq i)))) ++
  [Eff.writeFile (condorItemsFile cfg) (nlJoin (jobRows cfg nReq)),
    Eff.writeFile (masterCondorFile cfg) (submitFileContent cfg),
    Eff.println ("Submitting to Condor using " ++ masterCondorFile cfg
      ++ " ..."),
    Eff.condorSubmit (masterCondorFile cfg),
    match submitErr with
    | none => Eff.println ("Submission successful.")
    | some msg => Eff.println ("Error during submission: " ++ msg)]

theorem partLoop_no_fail (cfg : Config) (writeFails : String → Bool)
    (files : List String) (totalFiles nReq : Nat) (idxs : List Nat)
    (h : ∀ i ∈ idxs, writeFails (jobInputTxt cfg (i + 1)) = false) :
    partLoop cfg writeFails files totalFiles nReq idxs =
      ⟨idxs.map fun i => Eff.writeFile (jobInputTxt cfg (i + 1))
          (nlJoin (pySlice files (partStart totalFiles nReq i)
            (partEnd totalFiles nReq i))),
        idxs.map fun i => jobRow cfg (i + 1), none⟩ := by
  induction idxs with
  | nil => rfl
  | cons i rest ih =>
    simp only [partLoop, h i (by simp), Bool.false_eq_true, if_false,
      ih fun j hj => h j (by simp [hj]), List.map_cons]
    rfl

theorem mainRun_success (cfg : Config) (stdoutLines : List String)
    (writeFails : String → Bool) (submitErr : Option String)
    (hw : ∀ p, writeFails p = false)
    (hne : filesFromStdout stdoutLines ≠ []) :
    mainRun cfg (.ok stdoutLines) writeFails submitErr =
      (successTrace cfg (filesFromStdout stdoutLines) submitErr,
        .normalReturn) := by
  have hie : (filesFromStdout stdoutLines).isEmpty = false := by
    simpa [List.isEmpty_iff] using hne
  unfold mainRun successTrace
  simp only [hie, Bool.false_eq_true, if_false, hw,
    partLoop_no_fail cfg writeFails (filesFromStdout stdoutLines) _ _ _
      fun i _ => hw _]
  cases submitErr with
  | none => simp [jobRows, partStart, partEnd]
  | some msg => simp [jobRows, partStart, partEnd]

/-- C5: a listing that succeeds but yields zero non-blank entries aborts the
run before partitioning is attempted: the spec-level resolver classifies this
as `EmptyInputError`, and the trace is exactly the two console messages — no
directory is created and no file is written. -/
theorem C5_empty_listing (cfg : Config) (fs : String → Option String)
    (stdoutLines : List String) (writeFails : String → Bool)
    (submitErr : Option String) (h : filesFromStdout stdoutLines = []) :
    mainRun cfg (.ok stdoutLines) writeFails submitErr =
      ([Eff.println
          ("Listing files from XRDFS directory: " ++ cfg.inputDir ++ " ..."),
        Eff.println ("No files found in " ++ cfg.inputDir)],
        .normalReturn) ∧
    resolveSource fs (.ok stdoutLines) (.remoteDir cfg.inputDir) =
      .error .emptyInput := by
  have hie : (filesFromStdout stdoutLines).isEmpty = true := by simp [h]
  constructor
  · unfold mainRun
    simp [hie]
  · unfold resolveSource
    simp [hie]

/-- Witness for C5: a listing of one blank and one whitespace-only line. -/
theorem C5_empty_listing_witness :
    mainRun ⟨"ep", "./job.sh", "/data", "./results", 2, ""⟩
        (.ok ["", "  "]) (fun _ => false) none =
      ([Eff.println ("Listing files from XRDFS directory: /data ..."),
        Eff.println ("No files found in /data")], .normalReturn) :=
  (C5_empty_listing ⟨"ep", "./job.sh", "/data", "./results", 2, ""⟩
    (fun _ => none) ["", "  "] (fun _ => false) none (by decide)).1

/-- C10: a remote-listing failure, an empty listing, and a `condor_submit`
failure all return normally from `main`, so the interpreter exits with
status 0 — exactly the status of a successful run: the exit status never
distinguishes these failures from success. -/
theorem C10_exit_status (cfg : Config) (writeFails : String → Bool) :
    (∀ msg submitErr,
      exitCode (mainRun cfg (.callFailed msg) writeFails submitErr).2 = 0) ∧
    (∀ stdoutLines submitErr, filesFromStdout stdoutLines = [] →
      exitCode (mainRun cfg (.ok stdoutLines) writeFails submitErr).2 = 0) ∧
    (∀ stdoutLines msg, (∀ p, writeFails p = false) →
      exitCode (mainRun cfg (.ok stdoutLines) writeFails (some msg)).2 = 0 ∧
      exitCode (mainRun cfg (.ok stdoutLines) writeFails none).2 = 0) := by
  refine ⟨fun msg submitErr => rfl, fun stdoutLines submitErr h => ?_,
    fun stdoutLines msg hw => ?_⟩
  · have hie : (filesFromStdout stdoutLines).isEmpty = true := by simp [h]
    unfold mainRun
    simp [hie, exitCode]
  · by_cases hne : filesFromStdout stdoutLines = []
    · have hie : (filesFromStdout stdoutLines).isEmpty = true := by simp [hne]
      constructor <;> (unfold mainRun; simp [hie, exitCode])
    · rw [mainRun_success cfg stdoutLines writeFails (some msg) hw hne,
        mainRun_success cfg stdoutLines writeFails none hw hne]
      exact ⟨rfl, rfl⟩

/-- Witness for C10 at a failed listing. -/
theorem C10_exit_status_witness :
    exitCode (mainRun ⟨"ep", "./job.sh", "/data", "./results", 2, ""⟩
      (.callFailed ("exit 51")) (fun _ => false) none).2 = 0 :=
  (C10_exit_status ⟨"ep", "./job.sh", "/data", "./results", 2, ""⟩
    (fun _ => false)).1 ("exit 51") none

theorem partLoop_fail_path (cfg : Config) (writeFails : String → Bool)
    (files : List String) (totalFiles nReq : Nat) (idxs : List Nat)
    (p : String)
    (h : (partLoop cfg writeFails files totalFiles nReq idxs).failedPath =
      some p) : writeFails p = true := by
  induction idxs with
  | nil => simp [partLoop] at h
  | cons i rest ih =>
    by_cases hw : writeFails (jobInputTxt cfg (i + 1)) = true
    · simp only [partLoop, hw, if_true] at h
      cases h
      exact hw
    · simp only [partLoop, hw, Bool.false_eq_true, if_false] at h
      exact ih h

theorem mainRun_crash_writeFails (cfg : Config) (stdoutLines : List String)
    (writeFails : String → Bool) (submitErr : Option String) (p : String)
    (h : (mainRun cfg (.ok stdoutLines) writeFails submitErr).2 =
      .uncaughtOSError p) : writeFails p = true := by
  unfold mainRun at h
  by_cases hie : (filesFromStdout stdoutLines).isEmpty = true
  · simp [hie] at h
  · simp only [hie, Bool.false_eq_true, if_false] at h
    by_cases h1 : writeFails (inputListFile cfg) = true
    · simp only [h1, if_true] at h
      cases h
      exact h1
    · simp only [h1, Bool.false_eq_true, if_false] at h
      cases hfp : (partLoop cfg writeFails (filesFromStdout stdoutLines)
          (filesFromStdout stdoutLines).length
          (min cfg.njobs (filesFromStdout stdoutLines).length)
          (List.range (min cfg.njobs (filesFromStdout stdoutLines).length))
          ).failedPath with
      | some q =>
        rw [hfp] at h
        simp only at h
        cases h
        exact partLoop_fail_path cfg writeFails _ _ _ _ p hfp
      | none =>
        rw [hfp] at h
        simp only at h
        by_cases h2 : writeFails (condorItemsFile cfg) = true
        · simp only [h2, if_true] at h
          cases h
          exact h2
        · simp only [h2, Bool.false_eq_true, if_false] at h
          by_cases h3 : writeFails (masterCondorFile cfg) = true
          · simp only [h3, if_true] at h
            cases h
            exact h3
          · simp only [h3, Bool.false_eq_true, if_false] at h
            cases submitErr with
            | none => simp at h
            | some msg => simp at h

/-- C7 (amended): a listing failure and a submission failure each print a
single diagnostic and `main` returns normally, and a run in which no write
fails never crashes; but a filesystem write failure is NOT caught: every
crash is an uncaught `OSError` from a failed `open(path, "w")`. -/
theorem C7_amended_error_behavior (cfg : Config) (writeFails : String → Bool)
    (submitErr : Option String) :
    (∀ msg, mainRun cfg (.callFailed msg) writeFails submitErr =
      ([Eff.println
          ("Listing files from XRDFS directory: " ++ cfg.inputDir ++ " ..."),
        Eff.println ("Error listing XRDFS files: " ++ msg)],
        .normalReturn)) ∧
    (∀ stdoutLines, (∀ q, writeFails q = false) →
      (mainRun cfg (.ok stdoutLines) writeFails submitErr).2 =
        .normalReturn) ∧
    (∀ stdoutLines p,
      (mainRun cfg (.ok stdoutLines) writeFails submitErr).2 =
        .uncaughtOSError p → writeFails p = true) := by
  refine ⟨fun msg => rfl, fun stdoutLines hw => ?_,
    fun stdoutLines p h => mainRun_crash_writeFails cfg stdoutLines
      writeFails submitErr p h⟩
  by_cases hne : filesFromStdout stdoutLines = []
  · have hie : (filesFromStdout stdoutLines).isEmpty = true := by simp [hne]
    unfold mainRun
    simp [hie]
  · rw [mainRun_success cfg stdoutLines writeFails submitErr hw hne]

/-- Witness for the amended C7: no write fails, submission fails, yet the
process returns normally. -/
theorem C7_amended_error_behavior_witness :
    (mainRun ⟨"ep", "./job.sh", "/data", "./results", 1, ""⟩
      (.ok ["f1.root"]) (fun _ => false) (some ("exit 1"))).2 =
      .normalReturn :=
  (C7_amended_error_behavior ⟨"ep", "./job.sh", "/data", "./results", 1, ""⟩
    (fun _ => false) (some ("exit 1"))).2.1 ["f1.root"] fun _ => rfl

/-- C7 counterexample: one listed file and an `open` failure on the combined
list file `./results/job_ep/ep.list`: the run does not terminate with a
diagnostic — the `OSError` escapes `main` uncaught (a crash dump). -/
theorem C7_counterexample :
    (mainRun ⟨"ep", "./job.sh", "/data", "./results", 1, ""⟩
      (.ok ["f1.root"])
      (fun p => p == "./results/job_ep/ep.list") none).2 =
      .uncaughtOSError ("./results/job_ep/ep.list") ∧
    Outcome.uncaughtOSError ("./results/job_ep/ep.list") ≠
      Outcome.normalReturn := by
  constructor
  · decide
  · decide

/- ### Distinctness of the generated file paths -/

theorem jobInputTxt_ne_inputListFile (cfg : Config) (k : Nat) :
    jobInputTxt cfg k ≠ inputListFile cfg := by
  intro h
  have hlen := congrArg String.length h
  simp only [jobInputTxt, inputListFile, pathJoin, String.length_append,
    show ("/" : String).length = 1 from rfl,
    show (".list" : String).length = 5 from rfl,
    show ("_input.txt" : String).length = 10 from rfl,
    show ("_" : String).length = 1 from rfl] at hlen
  omega

theorem condorItemsFile_ne_inputListFile (cfg : Config) :
    condorItemsFile cfg ≠ inputListFile cfg := by
  intro h
  have hlen := congrArg String.length h
  simp only [condorItemsFile, inputListFile, pathJoin, String.length_append,
    show ("/" : String).length = 1 from rfl,
    show (".list" : String).length = 5 from rfl,
    show (".items" : String).length = 6 from rfl] at hlen
  omega

theorem masterCondorFile_ne_inputListFile (cfg : Config) :
    masterCondorFile cfg ≠ inputListFile cfg := by
  intro h
  have hlen := congrArg String.length h
  simp only [masterCondorFile, inputListFile, pathJoin, String.length_append,
    show ("/" : String).length = 1 from rfl,
    show (".list" : String).length = 5 from rfl,
    show ("submit_" : String).length = 7 from rfl,
    show (".sub" : String).length = 4 from rfl] at hlen
  omega

/-- C9: every successful run writes the combined list `{tag}.list` in the job
folder, containing the entire resolved item sequence newline-joined, before
any other file is written; no later effect targets that file again (the
script never reads it back), and the run returns normally. -/
theorem C9_combined_list (cfg : Config) (stdoutLines : List String)
    (writeFails : String → Bool) (submitErr : Option String)
    (hw : ∀ p, writeFails p = false)
    (hne : filesFromStdout stdoutLines ≠ []) :
    ∃ pre post,
      (mainRun cfg (.ok stdoutLines) writeFails submitErr).1 =
        pre ++ Eff.writeFile (inputListFile cfg)
          (nlJoin (filesFromStdout stdoutLines)) :: post ∧
      (∀ e ∈ pre, effWritePath e = none) ∧
      (∀ e ∈ post, effWritePath e ≠ some (inputListFile cfg)) ∧
      (mainRun cfg (.ok stdoutLines) writeFails submitErr).2 =
        .normalReturn := by
  rw [mainRun_success cfg stdoutLines writeFails submitErr hw hne]
  set files := filesFromStdout stdoutLines with hfiles
  set nReq := min cfg.njobs files.length with hnreq
  refine ⟨[Eff.println
      ("Listing files from XRDFS directory: " ++ cfg.inputDir ++ " ..."),
    Eff.println ("Found " ++ toString files.length ++ " files, splitting into "
      ++ toString nReq ++ " jobs..."),
    Eff.mkdirP cfg.outputDir, Eff.mkdirP (jobFolder cfg)],
    ((List.range nReq).map fun i =>
      Eff.writeFile (jobInputTxt cfg (i + 1))
        (nlJoin (pySlice files (partStart files.length nReq i)
          (partEnd files.length nReq i)))) ++
    [Eff.writeFile (condorItemsFile cfg) (nlJoin (jobRows cfg nReq)),
      Eff.writeFile (masterCondorFile cfg) (submitFileContent cfg),
      Eff.println ("Submitting to Condor using " ++ masterCondorFile cfg
        ++ " ..."),
      Eff.condorSubmit (masterCondorFile cfg),
      match submitErr with
      | none => Eff.println ("Submission successful.")
      | some msg => Eff.println ("Error during submission: " ++ msg)],
    ?_, ?_, ?_, rfl⟩
  · simp [successTrace]
  · intro e he
    simp only [List.mem_cons, List.mem_singleton, List.not_mem_nil] at he
    rcases he with rfl | rfl | rfl | rfl | he
    · rfl
    · rfl
    · rfl
    · rfl
    · exact absurd he (by simp)
  · intro e he
    simp only [List.mem_append, List.mem_map, List.mem_range,
      List.mem_cons, List.not_mem_nil] at he
    rcases he with ⟨i, hi, rfl⟩ | rfl | rfl | rfl | rfl | he
    · simp only [effWritePath, Option.some.injEq]
      exact fun hcontra => jobInputTxt_ne_inputListFile cfg (i + 1) (Option.some.inj hcontra)
    · simp only [effWritePath, Option.some.injEq]
      exact fun hcontra => condorItemsFile_ne_inputListFile cfg (Option.some.inj hcontra)
    · simp only [effWritePath, Option.some.injEq]
      exact fun hcontra => masterCondorFile_ne_inputListFile cfg (Option.some.inj hcontra)
    · simp [effWritePath]
    · simp [effWritePath]
    · rcases he with rfl | he
      · cases submitErr <;> simp [effWritePath]
      · exact absurd he (by simp)

/-- Witness for C9 at a concrete one-file listing. -/
theorem C9_combined_list_witness :
    ∃ pre post,
      (mainRun ⟨"ep", "./job.sh", "/data", "./results", 1, ""⟩
        (.ok ["f1.root"]) (fun _ => false) none).1 =
        pre ++ Eff.writeFile
          (inputListFile ⟨"ep", "./job.sh", "/data", "./results", 1, ""⟩)
          (nlJoin (filesFromStdout ["f1.root"])) :: post ∧
      (∀ e ∈ pre, effWritePath e = none) ∧
      (∀ e ∈ post, effWritePath e ≠
        some (inputListFile ⟨"ep", "./job.sh", "/data", "./results", 1, ""⟩)) ∧
      (mainRun ⟨"ep", "./job.sh", "/data", "./results", 1, ""⟩
        (.ok ["f1.root"]) (fun _ => false) none).2 = .normalReturn :=
  C9_combined_list ⟨"ep", "./job.sh", "/data", "./results", 1, ""⟩
    ["f1.root"] (fun _ => false) none (fun _ => rfl) (by decide)

/- ### The queue directive is the unique iteration directive -/

/-- The first character of a string, used to classify descriptor lines. -/
def headChar (s : String) : Option Char := s.data.head?

theorem headChar_append (a b : String) (c : Char) (h : headChar a = some c) :
    headChar (a ++ b) = some c := by
  unfold headChar at h ⊢
  rw [String.data_append]
  cases hd : a.data with
  | nil => rw [hd] at h; simp at h
  | cons x xs =>
    rw [hd] at h
    simp only [List.head?_cons, Option.some.injEq] at h
    simp [h]

/-- C6: the generated submit descriptor is a fixed 13-line text whose single
iteration directive is its final line
`queue InFile, OutFile, Tag from <items file>` — no other line is a `queue`
directive, and the descriptor does not depend on the partition count at all
(so it is never templated once per partition) — and whose `Arguments` line
references `$(InFile)` and `$(OutFile)` plus the optional extra-arguments
suffix. -/
theorem C6_descriptor (cfg : Config) :
    (submitLines cfg).length = 13 ∧
    (submitLines cfg)[12]? =
      some ("queue InFile, OutFile, Tag from " ++ condorItemsFile cfg) ∧
    (∀ l ∈ (submitLines cfg).take 12, headChar l ≠ some 'q') ∧
    (submitLines cfg)[7]? =
      some ("Arguments      = $(InFile) $(OutFile)" ++
        (if cfg.jobArgs ≠ "" then " " ++ cfg.jobArgs else "")) ∧
    submitFileContent cfg =
      String.join ((submitLines cfg).map fun l => l ++ "\n") := by
  refine ⟨rfl, rfl, ?_, rfl, rfl⟩
  intro l hl
  have hE : headChar ("Executable     = " ++ cfg.exec) = some 'E' :=
    headChar_append _ _ _ rfl
  have hA : headChar ("Arguments      = $(InFile) $(OutFile)" ++
      (if cfg.jobArgs ≠ "" then " " ++ cfg.jobArgs else "")) = some 'A' :=
    headChar_append _ _ _ rfl
  have hO : headChar ("Output         = " ++ jobFolder cfg ++ "/$(Tag).out") =
      some 'O' :=
    headChar_append _ _ _ (headChar_append _ _ _ rfl)
  have hR : headChar ("Error          = " ++ jobFolder cfg ++ "/$(Tag).err") =
      some 'E' :=
    headChar_append _ _ _ (headChar_append _ _ _ rfl)
  have hL : headChar ("Log            = " ++ jobFolder cfg ++ "/$(Tag).log") =
      some 'L' :=
    headChar_append _ _ _ (headChar_append _ _ _ rfl)
  simp only [submitLines, List.take, List.mem_cons, List.not_mem_nil,
    or_false] at hl
  rcases hl with rfl | rfl | rfl | rfl | rfl | rfl | rfl | rfl | rfl | rfl
    | rfl | rfl
  · intro hcontra; exact absurd hcontra (by decide)
  · intro hcontra; exact absurd hcontra (by decide)
  · rw [hE]; decide
  · intro hcontra; exact absurd hcontra (by decide)
  · intro hcontra; exact absurd hcontra (by decide)
  · intro hcontra; exact absurd hcontra (by decide)
  · intro hcontra; exact absurd hcontra (by decide)
  · rw [hA]; decide
  · rw [hO]; decide
  · rw [hR]; decide
  · rw [hL]; decide
  · intro hcontra; exact absurd hcontra (by decide)

/-- Witness for C6 at a concrete configuration. -/
theorem C6_descriptor_witness :
    (submitLines ⟨"ep", "./job.sh", "/data", "./results", 1, ""⟩).length = 13 :=
  (C6_descriptor ⟨"ep", "./job.sh", "/data", "./results", 1, ""⟩).1

/-- C8: the Source Resolver has two mutually exclusive modes selected by
which configuration input is supplied.  Local-list mode reads the text file —
each non-blank line, stripped of surrounding whitespace, becomes one item
reference in file order, and a missing file fails with `MissingInputError` —
and never consults the remote listing; remote-directory mode never consults
the local filesystem. -/
theorem C8_source_modes (fs fs2 : String → Option String)
    (listing listing2 : Listing) (path : String) :
    (fs path = none →
      resolveSource fs listing (.localList path) = .error .missingInput) ∧
    (∀ content, fs path = some content →
      resolveSource fs listing (.localList path) =
        .ok ((( splitNl content).map pyStrip).filter fun l => l != "")) ∧
    resolveSource fs listing (.localList path) =
      resolveSource fs listing2 (.localList path) ∧
    resolveSource fs listing (.remoteDir path) =
      resolveSource fs2 listing (.remoteDir path) := by
  refine ⟨fun h => ?_, fun content h => ?_, rfl, rfl⟩
  · simp [resolveSource, resolveLocalList, h]
  · simp [resolveSource, resolveLocalList, h]

/-- Witness for C8: a two-line local list with surrounding whitespace and a
blank line, and a missing file. -/
theorem C8_source_modes_witness :
    resolveSource (fun p => if p = "lists/in.txt" then some (" a.root \n\nb.root")
        else none) (.callFailed ("down")) (.localList ("lists/in.txt")) =
      .ok ["a.root", "b.root"] ∧
    resolveSource (fun _ => none) (.callFailed ("down"))
      (.localList ("lists/in.txt")) = .error .missingInput := by
  constructor
  · rw [(C8_source_modes (fun p => if p = "lists/in.txt" then
        some (" a.root \n\nb.root") else none) (fun _ => none)
        (.callFailed ("down")) (.callFailed ("down")) ("lists/in.txt")).2.1
        (" a.root \n\nb.root") (by simp)]
    exact congrArg Except.ok (by decide)
  · exact (C8_source_modes (fun _ => none) (fun _ => none)
      (.callFailed ("down")) (.callFailed ("down")) ("lists/in.txt")).1 rfl

end EPICSubmitter
